import Mathlib

/-!
Verification of the Botafogo match/tenure tracking system
(`extrair_dados.py` ingestion, `api.py` / `consultar.py` queries).

Modelling conventions:
* Dates are stored by SQLite as ISO `YYYY-MM-DD` text and compared
  lexicographically, which on fixed-width ISO text coincides with the numeric
  order of the digits; we encode a date as the natural number `yyyymmdd`
  (e.g. `2024-05-01` is `20240501`), preserving that order.
* SQL `NULL`able columns are `Option` fields.
* The scraped cell texts are `String`s; the Python string operations used by
  the parser (`split`, `replace`, `strip`, truthiness) are re-implemented
  below on `List Char`.
-/

namespace Botafogo

/-- A calendar date encoded as `yyyymmdd` (see module comment). -/
abbrev Data := Nat

/-- One row of the `tecnicos` table (`extrair_dados.py` lines 52-62):
`id` autoincrement primary key, `nome`, `dt_nascimento`, `dt_inicio`,
`dt_fim`, `dt_coleta`, with `UNIQUE(nome, dt_inicio)`.
`dt_inicio` is non-null for every stored row because `get_tecnicos`
line 226 keeps only rows whose parsed `dt_inicio` passes a `>=` test. -/
structure Tecnico where
  id : Nat
  nome : String
  dt_nascimento : Option Data
  dt_inicio : Data
  dt_fim : Option Data
  dt_coleta : Data
deriving DecidableEq

/-- One row of the `partidas` table (`extrair_dados.py` lines 29-49), with
`UNIQUE(competicao, rodada, data)`. -/
structure Partida where
  id : Nat
  competicao : String
  rodada : String
  dia : String
  data : Data
  horario : String
  «local» : String
  ranking : Option Int
  adversario : Option String
  ranking_adversario : Option Int
  sistema : String
  publico : Option Int
  gols : Option Int
  gols_adversario : Option Int
  resultado : Option String
  dt_coleta : Data
deriving DecidableEq

/-- The join condition used by every query that attributes a match to a
tenure (`api.py` lines 66-67, 143-144, 222-223, 315-316, 443-444 and
`consultar.py` lines 59-60):
`t.dt_inicio <= p.data AND (t.dt_fim IS NULL OR t.dt_fim >= p.data)`. -/
def ativo (t : Tecnico) (d : Data) : Bool :=
  decide (t.dt_inicio ≤ d) &&
    (match t.dt_fim with
     | none => true
     | some fim => decide (fim ≥ d))

/-- LEFT JOIN semantics for one left row: one result row per matching
tenure, or a single row with NULL tenure columns when none matches. -/
def joinTecnico (ts : List Tecnico) (p : Partida) : List (Partida × Option Tecnico) :=
  match ts.filter (fun t => ativo t p.data) with
  | [] => [(p, none)]
  | ativos => ativos.map (fun t => (p, some t))

/-- The FROM/LEFT JOIN clause of `get_partidas` (`api.py` lines 63-69):
the joined rows, in match order. -/
def leftJoinPartidas (ps : List Partida) (ts : List Tecnico) :
    List (Partida × Option Tecnico) :=
  ps.flatMap (joinTecnico ts)

/-- Group key of `GROUP BY t.id, t.nome, t.dt_inicio, t.dt_fim`
(`api.py` line 318); the LEFT JOIN's unmatched rows carry NULL in all four
columns, and SQLite's GROUP BY collects all-NULL keys into a single group. -/
def chaveGrupo : Option Tecnico → Option (Nat × String × Data × Option Data)
  | none => none
  | some t => some (t.id, t.nome, t.dt_inicio, t.dt_fim)

/-- Rows feeding the aggregate of `get_estatisticas`: the left join
restricted by `WHERE p.resultado IS NOT NULL` (`api.py` line 317). -/
def linhasEstatisticas (ps : List Partida) (ts : List Tecnico) :
    List (Partida × Option Tecnico) :=
  (leftJoinPartidas ps ts).filter (fun j => j.1.resultado.isSome)

/-- The groups of `get_estatisticas` (`api.py` line 318): one entry per
distinct group key, paired with the rows of that group. -/
def grupos (ps : List Partida) (ts : List Tecnico) :
    List (Option (Nat × String × Data × Option Data) × List (Partida × Option Tecnico)) :=
  ((linhasEstatisticas ps ts).map (fun j => chaveGrupo j.2)).dedup.map
    (fun k => (k, (linhasEstatisticas ps ts).filter (fun j => chaveGrupo j.2 = k)))

/-- A row of maximal `p.data` (first listed among ties), modelling
`ORDER BY p.data DESC LIMIT 1`. -/
def maiorData : List (Partida × Option Tecnico) → Option (Partida × Option Tecnico)
  | [] => none
  | j :: js =>
    match maiorData js with
    | none => some j
    | some m => if j.1.data ≥ m.1.data then some j else some m

/-- The query of `get_ultima_partida` (`api.py` lines 424-450): the left
join ordered by date descending, limited to one row. -/
def ultimaPartida (ps : List Partida) (ts : List Tecnico) :
    Option (Partida × Option Tecnico) :=
  maiorData (leftJoinPartidas ps ts)

/-- SQLite SUM over an integer column: NULLs are skipped, and the result is
NULL when no non-NULL value exists. -/
def somaSQL (l : List (Option Int)) : Option Int :=
  match l.filterMap id with
  | [] => none
  | xs => some xs.sum

/-- SQLite subtraction of two aggregate values: NULL propagates. -/
def subSQL : Option Int → Option Int → Option Int
  | some a, some b => some (a - b)
  | _, _ => none

/-- SQLite `ROUND(x, 2)` on a non-negative value: round half away from zero
to two decimal places. -/
def round2 (q : ℚ) : ℚ := ((⌊q * 100 + 1/2⌋ : ℤ) : ℚ) / 100

/-- The points CASE expression of `get_estatisticas` (`api.py` lines
300-302): 3 for a win row, 1 for a draw row, 0 otherwise. -/
def pontosDe (r : Option String) : Nat :=
  if r = some "V" then 3 else if r = some "E" then 1 else 0

/-- One output row of the statistics aggregate (`api.py` lines 290-312),
restricted to the derived columns. -/
structure Estatisticas where
  jogos : Nat
  vitorias : Nat
  empates : Nat
  derrotas : Nat
  pontos_conquistados : Nat
  pontos_possiveis : Nat
  aproveitamento : Option ℚ
  gols_marcados : Option Int
  gols_sofridos : Option Int
  saldo_gols : Option Int
deriving DecidableEq

/-- The aggregate SELECT of `get_estatisticas` (`api.py` lines 290-320)
evaluated over the match rows of one group.  The `aproveitamento` column is
`ROUND((pontos * 100.0) / (COUNT(*) * 3), 2)`; on an empty group the divisor
is zero and SQLite division by zero yields NULL (no error), hence `none`. -/
def agrega (ps : List Partida) : Estatisticas where
  jogos := ps.length
  vitorias := ps.countP (fun p => p.resultado = some "V")
  empates := ps.countP (fun p => p.resultado = some "E")
  derrotas := ps.countP (fun p => p.resultado = some "D")
  pontos_conquistados := (ps.map (fun p => pontosDe p.resultado)).sum
  pontos_possiveis := ps.length * 3
  aproveitamento :=
    if ps.length * 3 = 0 then none
    else some (round2 ((((ps.map (fun p => pontosDe p.resultado)).sum : ℚ) * 100) /
      ((ps.length : ℚ) * 3)))
  gols_marcados := somaSQL (ps.map (fun p => p.gols))
  gols_sofridos := somaSQL (ps.map (fun p => p.gols_adversario))
  saldo_gols := subSQL (somaSQL (ps.map (fun p => p.gols)))
    (somaSQL (ps.map (fun p => p.gols_adversario)))

/-- Python `str.split(sep)` for a one-character separator: splits on every
occurrence, keeping empty pieces; the result is never empty. -/
def pySplit (sep : Char) : List Char → List (List Char)
  | [] => [[]]
  | c :: cs =>
    match pySplit sep cs with
    | [] => [[]]
    | p :: ps => if c = sep then [] :: p :: ps else (c :: p) :: ps

/-- Python `s.split(sep)[0]`. -/
def primeiraParte (sep : Char) (s : String) : String :=
  ⟨(pySplit sep s.data).headD []⟩

/-- Python `s.split(sep)[-1]`. -/
def ultimaParte (sep : Char) (s : String) : String :=
  ⟨(pySplit sep s.data).getLastD []⟩

/-- Python `sep in s` for a one-character `sep`. -/
def contem (c : Char) (s : String) : Bool := s.data.contains c

/-- Python `str.strip()`. -/
def pyStrip (s : String) : String :=
  ⟨((s.data.dropWhile Char.isWhitespace).reverse.dropWhile Char.isWhitespace).reverse⟩

/-- Python chained `str.replace(".", "").replace("(", "").replace(")", "")`
(`extrair_dados.py` line 106): deleting three distinct single characters in
sequence equals dropping all of them. -/
def removePontuacao (s : String) : String :=
  ⟨s.data.filter (fun c => !(c == '.' || c == '(' || c == ')'))⟩

/-- Python `str.replace(".)", "")` (line 108): delete every non-overlapping
occurrence of the two-character pattern, scanning left to right. -/
def removePontoParen : List Char → List Char
  | [] => []
  | '.' :: ')' :: cs => removePontoParen cs
  | c :: cs => c :: removePontoParen cs

/-- Accumulator for `lerDigitos`: all characters must be digits. -/
def lerDigitosAux : List Char → Nat → Option Nat
  | [], acc => some acc
  | c :: cs, acc =>
    if c.isDigit then lerDigitosAux cs (acc * 10 + (c.toNat - 48)) else none

/-- A non-empty all-digit numeral, else `none`. -/
def lerDigitos : List Char → Option Nat
  | [] => none
  | l => lerDigitosAux l 0

/-- The model of `pd.to_numeric(..., errors="coerce")` on the integer-shaped
scraped tokens: an optional leading minus sign followed by at least one
digit parses; anything else coerces to NULL (NaN). -/
def toNumeric (s : String) : Option Int :=
  match s.data with
  | '-' :: resto => (lerDigitos resto).map (fun n => -(n : Int))
  | l => (lerDigitos l).map (fun n => (n : Int))

/-- The ten cells sliced from one scraped table row (`extrair_dados.py`
line 97) together with the competition headline; rows with fewer than 9
cells were already skipped (lines 94-95), and we model the rows in which all
ten cells are present (the unused sixth cell is dropped as in the source). -/
structure LinhaBruta where
  competicao : String
  rodada : String
  data : String
  horario : String
  «local» : String
  ranking : String
  adversario : String
  sistema : String
  publico : String
  resultado : String
deriving DecidableEq

/-- The row dictionary built at lines 99-115, before type conversion. -/
structure Linha where
  competicao : String
  rodada : String
  dia : String
  data : String
  horario : String
  «local» : String
  ranking : Option String
  adversario : Option String
  ranking_adversario : Option String
  sistema : String
  publico : String
  gols : Option String
  gols_adversario : Option String
  resultado : String
deriving DecidableEq

/-- The field-level parsing of lines 99-115.  In particular (lines 111-112,
with Python's right-associative conditional expression): when `local == "C"`
the own goals are the text left of the first `:` and the opponent goals the
text right of the last `:`; otherwise the two sides are swapped, provided
the score text is non-empty and contains a `:`, else both are NULL. -/
def montaLinha (r : LinhaBruta) : Linha where
  competicao := r.competicao
  rodada := r.rodada
  dia := if contem ' ' r.data then primeiraParte ' ' r.data else r.data
  data := if contem ' ' r.data then ultimaParte ' ' r.data else r.data
  horario := r.horario
  «local» := r.«local»
  ranking := if r.ranking ≠ "" then some (removePontuacao r.ranking) else none
  adversario :=
    if r.adversario ≠ "" then some (pyStrip (primeiraParte '(' r.adversario)) else none
  ranking_adversario :=
    if r.adversario ≠ "" ∧ contem '(' r.adversario = true then
      some (pyStrip ⟨removePontoParen (ultimaParte '(' r.adversario).data⟩)
    else none
  sistema := r.sistema
  publico := r.publico
  gols :=
    if r.«local» = "C" then some (primeiraParte ':' r.resultado)
    else if r.resultado ≠ "" ∧ contem ':' r.resultado = true then
      some (ultimaParte ':' r.resultado)
    else none
  gols_adversario :=
    if r.«local» = "C" then some (ultimaParte ':' r.resultado)
    else if r.resultado ≠ "" ∧ contem ':' r.resultado = true then
      some (primeiraParte ':' r.resultado)
    else none
  resultado := r.resultado

/-- A candidate `partidas` row after the type conversions of lines 133-146;
`data` may be NULL when the date text does not parse (`errors="coerce"`). -/
structure PartidaConvertida where
  competicao : String
  rodada : String
  dia : String
  data : Option Data
  horario : String
  «local» : String
  ranking : Option Int
  adversario : Option String
  ranking_adversario : Option Int
  sistema : String
  publico : Option Int
  gols : Option Int
  gols_adversario : Option Int
  resultado : Option String
deriving DecidableEq

/-- pandas NaN-style strict comparison used on line 141: any comparison
against a missing value is false. -/
def maiorOpt : Option Int → Option Int → Bool
  | some a, some b => decide (a > b)
  | _, _ => false

/-- pandas NaN-style equality used on line 142. -/
def igualOpt : Option Int → Option Int → Bool
  | some a, some b => decide (a = b)
  | _, _ => false

/-- Lines 140-146, the derived `resultado` column.  Python's conditional
expression associates to the right, so the code reads:
`"V" if gols > gols_adv else (("E" if gols == gols_adv else "D") if
notnull(gols) and notnull(gols_adv) else None)`. -/
def calculaResultado (g ga : Option Int) : Option String :=
  if maiorOpt g ga then some "V"
  else if g.isSome && ga.isSome then
    (if igualOpt g ga then some "E" else some "D")
  else none

/-- The type-conversion step (lines 133-146) applied to one row; the date
parsing `pd.to_datetime(..., dayfirst=True, errors="coerce").dt.date` is
abstracted as the `parseData` argument and `pd.to_numeric` as `toNumeric`
(`publico` first drops its thousands separators, line 135). -/
def converte (parseData : String → Option Data) (l : Linha) : PartidaConvertida where
  competicao := l.competicao
  rodada := l.rodada
  dia := l.dia
  data := parseData l.data
  horario := l.horario
  «local» := l.«local»
  ranking := l.ranking.bind toNumeric
  adversario := l.adversario
  ranking_adversario := l.ranking_adversario.bind toNumeric
  sistema := l.sistema
  publico := toNumeric ⟨l.publico.data.filter (fun c => !(c == '.'))⟩
  gols := l.gols.bind toNumeric
  gols_adversario := l.gols_adversario.bind toNumeric
  resultado := calculaResultado (l.gols.bind toNumeric) (l.gols_adversario.bind toNumeric)

/-- The cleaning filters of lines 128-131, applied before type conversion:
drop the meta competition block, drop placeholder scores.  The third filter
(`data` not null) is vacuously true at this stage because the raw cell is a
string. -/
def limpeza (ls : List Linha) : List Linha :=
  (ls.filter (fun l => l.competicao ≠ "Os últimos  jogos")).filter
    (fun l => l.resultado ≠ "-:-")

/-- The parse-clean-convert pipeline of `get_partidas` (lines 91-146):
exactly these candidate rows are subsequently upserted into `partidas`
(lines 153-183). -/
def pipeline (parseData : String → Option Data) (rs : List LinhaBruta) :
    List PartidaConvertida :=
  (limpeza (rs.map montaLinha)).map (converte parseData)

/-- A date parser that always coerces to NULL; used only to instantiate the
`parseData` argument in concrete examples whose claims do not involve the
date column. -/
def parseNada : String → Option Data := fun _ => none

/-- A SQLite table with an autoincrement id column. -/
structure Banco (R : Type) where
  linhas : List R
  proximoId : Nat
deriving DecidableEq

/-- The shape of a keyed upsert target, shared by the `partidas` and
`tecnicos` tables.  `R` is the stored row, `N` the incoming record and `K`
the natural key; `aplica d n r` performs the DO UPDATE SET list (stamping
the collection date `d`), `insere i d n` builds a freshly inserted row,
`marca` erases the collection date (leaving the observable content of a
row) and `coleta` reads the collection date.  The laws record that the SET
list never touches the key, that re-applying it overwrites the previous
application, that the SET list applied to a row freshly inserted from the
same record only restamps the date, and that `marca` hides the date. -/
structure Tabela (R N K : Type) [DecidableEq K] where
  chaveR : R → K
  chaveN : N → K
  aplica : Data → N → R → R
  insere : Nat → Data → N → R
  marca : R → R
  coleta : R → Data
  chave_aplica : ∀ d n r, chaveR (aplica d n r) = chaveR r
  chave_insere : ∀ i d n, chaveR (insere i d n) = chaveN n
  aplica_aplica : ∀ d d' n m r, aplica d n (aplica d' m r) = aplica d n r
  aplica_insere : ∀ d d' i n, aplica d n (insere i d' n) = insere i d n
  marca_aplica : ∀ d d' n r, marca (aplica d n r) = marca (aplica d' n r)
  marca_insere : ∀ d d' i n, marca (insere i d n) = marca (insere i d' n)
  coleta_aplica : ∀ d n r, coleta (aplica d n r) = d

namespace Tabela

variable {R N K : Type} [DecidableEq K]

/-- Whether some stored row carries the key. -/
def temChave (T : Tabela R N K) (ls : List R) (k : K) : Bool :=
  ls.any (fun r => T.chaveR r = k)

/-- The INSERT ... ON CONFLICT ... DO UPDATE statement for one record
(`extrair_dados.py` lines 157-180 and 239-252): append a fresh row with the
next id when the key is new, otherwise rewrite the SET-list columns of every
row sharing the key. -/
def upsert (T : Tabela R N K) (d : Data) (s : Banco R) (n : N) : Banco R :=
  if T.temChave s.linhas (T.chaveN n) then
    ⟨s.linhas.map (fun r => if T.chaveR r = T.chaveN n then T.aplica d n r else r),
     s.proximoId⟩
  else ⟨s.linhas ++ [T.insere s.proximoId d n], s.proximoId + 1⟩

/-- One ingestion run dated `d`: the per-row upsert loop over the batch. -/
def ingere (T : Tabela R N K) (d : Data) (s : Banco R) (b : List N) : Banco R :=
  b.foldl (T.upsert d) s

/-- The last record of the batch carrying the key, if any ("last one in the
batch wins"). -/
def ultimaCom (T : Tabela R N K) (b : List N) (k : K) : Option N :=
  (b.filter (fun n => T.chaveN n = k)).getLast?

/-- The net effect of a batch on one already-stored row: the SET list of the
last record sharing its key, or no change. -/
def aplicaLote (T : Tabela R N K) (d : Data) (b : List N) (r : R) : R :=
  match T.ultimaCom b (T.chaveR r) with
  | some m => T.aplica d m r
  | none => r

end Tabela

/-- The incoming record of the `partidas` upsert: the VALUES tuple of lines
157-180 minus the autoincrement `id`, and with the collection date factored
out as the run-date parameter of `Tabela.upsert` (every row of one run
carries `dt_coleta = date.today()`, line 114). -/
structure NovaPartida where
  competicao : String
  rodada : String
  dia : String
  data : Data
  horario : String
  «local» : String
  ranking : Option Int
  adversario : Option String
  ranking_adversario : Option Int
  sistema : String
  publico : Option Int
  gols : Option Int
  gols_adversario : Option Int
  resultado : Option String
deriving DecidableEq

/-- The `partidas` upsert of lines 157-174: conflict target
`(competicao, rodada, data)`; the DO UPDATE SET list rewrites `horario`,
`local`, `ranking`, `adversario`, `ranking_adversario`, `sistema`,
`publico`, `gols`, `gols_adversario`, `resultado` and `dt_coleta` — it does
not include `dia`. -/
def tabelaPartidas : Tabela Partida NovaPartida (String × String × Data) where
  chaveR r := (r.competicao, r.rodada, r.data)
  chaveN n := (n.competicao, n.rodada, n.data)
  aplica d n r :=
    { r with horario := n.horario, «local» := n.«local», ranking := n.ranking,
             adversario := n.adversario, ranking_adversario := n.ranking_adversario,
             sistema := n.sistema, publico := n.publico, gols := n.gols,
             gols_adversario := n.gols_adversario, resultado := n.resultado,
             dt_coleta := d }
  insere i d n :=
    { id := i, competicao := n.competicao, rodada := n.rodada, dia := n.dia,
      data := n.data, horario := n.horario, «local» := n.«local»,
      ranking := n.ranking, adversario := n.adversario,
      ranking_adversario := n.ranking_adversario, sistema := n.sistema,
      publico := n.publico, gols := n.gols, gols_adversario := n.gols_adversario,
      resultado := n.resultado, dt_coleta := d }
  marca r := { r with dt_coleta := 0 }
  coleta r := r.dt_coleta
  chave_aplica := fun _ _ _ => rfl
  chave_insere := fun _ _ _ => rfl
  aplica_aplica := fun _ _ _ _ _ => rfl
  aplica_insere := fun _ _ _ _ => rfl
  marca_aplica := fun _ _ _ _ => rfl
  marca_insere := fun _ _ _ _ => rfl
  coleta_aplica := fun _ _ _ => rfl

/-- The incoming record of the `tecnicos` upsert (lines 239-252), minus the
autoincrement `id` and with `dt_coleta` factored out likewise (line 228). -/
structure NovoTecnico where
  nome : String
  dt_nascimento : Option Data
  dt_inicio : Data
  dt_fim : Option Data
deriving DecidableEq

/-- The `tecnicos` upsert of lines 239-245: conflict target
`(nome, dt_inicio)`; the DO UPDATE SET list rewrites `dt_nascimento`,
`dt_fim` and `dt_coleta`. -/
def tabelaTecnicos : Tabela Tecnico NovoTecnico (String × Data) where
  chaveR t := (t.nome, t.dt_inicio)
  chaveN n := (n.nome, n.dt_inicio)
  aplica d n t :=
    { t with dt_nascimento := n.dt_nascimento, dt_fim := n.dt_fim, dt_coleta := d }
  insere i d n :=
    { id := i, nome := n.nome, dt_nascimento := n.dt_nascimento,
      dt_inicio := n.dt_inicio, dt_fim := n.dt_fim, dt_coleta := d }
  marca t := { t with dt_coleta := 0 }
  coleta t := t.dt_coleta
  chave_aplica := fun _ _ _ => rfl
  chave_insere := fun _ _ _ => rfl
  aplica_aplica := fun _ _ _ _ _ => rfl
  aplica_insere := fun _ _ _ _ => rfl
  marca_aplica := fun _ _ _ _ => rfl
  marca_insere := fun _ _ _ _ => rfl
  coleta_aplica := fun _ _ _ => rfl

/-- The ASCII apostrophe, written by code point to keep it out of string
literals. -/
def aspa : Char := Char.ofNat 39

/-- Wrap a text in apostrophes, i.e. a SQLite string literal. -/
def comAspas (s : String) : String := ⟨aspa :: s.data ++ [aspa]⟩

/-- The year-filter clause appended by `get_partidas` when `ano` is given
(`api.py` line 73, identical in `app.py` line 71): the `%Y` is bare, not a
SQLite string literal. -/
def filtroAnoApi : String := " AND strftime(%Y, data) = ?"

/-- The year-filter clause of the working siblings (`consultar.py` line 14;
`api.py` line 145 carries the same quoted literal): `strftime` takes the
quoted format string. -/
def filtroAnoConsultar : String :=
  " AND strftime(" ++ comAspas "%Y" ++ ", data) = ?"

/-- Bool test for a prefix of a character list. -/
def ehPrefixoDe : List Char → List Char → Bool
  | [], _ => true
  | _ :: _, [] => false
  | p :: ps, c :: cs => p == c && ehPrefixoDe ps cs

/-- Bool test for a contiguous substring. -/
def contemTrecho (pat : List Char) : List Char → Bool
  | [] => ehPrefixoDe pat []
  | c :: cs => ehPrefixoDe pat (c :: cs) || contemTrecho pat cs

/-! Concrete example data used by the claim instances. -/

/-- A tenure with the boundary dates of the spec's example:
`start_date = 2023-07-18`, `end_date = 2024-05-01`. -/
def tecnicoExemplo : Tecnico :=
  { id := 1, nome := "Artur Jorge", dt_nascimento := none,
    dt_inicio := 20230718, dt_fim := some 20240501, dt_coleta := 20240601 }

/-- First of two overlapping tenures. -/
def tecnicoSobreposto1 : Tecnico :=
  { id := 1, nome := "Tiago Nunes", dt_nascimento := none,
    dt_inicio := 20240101, dt_fim := some 20240630, dt_coleta := 20240901 }

/-- Second overlapping tenure, with the later start date. -/
def tecnicoSobreposto2 : Tecnico :=
  { id := 2, nome := "Artur Jorge", dt_nascimento := none,
    dt_inicio := 20240301, dt_fim := some 20240930, dt_coleta := 20240901 }

/-- A match dated inside both overlapping tenures. -/
def partidaSobreposta : Partida :=
  { id := 7, competicao := "Campeonato Brasileiro Série A", rodada := "3",
    dia := "dom.", data := 20240401, horario := "16:00", «local» := "C",
    ranking := some 1, adversario := some "Fluminense",
    ranking_adversario := some 9, sistema := "4-4-2", publico := some 40000,
    gols := some 2, gols_adversario := some 0, resultado := some "V",
    dt_coleta := 20240901 }

/-- A pair of clearly disjoint tenures. -/
def tecnicoDisjunto1 : Tecnico :=
  { id := 1, nome := "Bruno Lage", dt_nascimento := none,
    dt_inicio := 20230701, dt_fim := some 20231010, dt_coleta := 20240901 }

/-- Second disjoint tenure. -/
def tecnicoDisjunto2 : Tecnico :=
  { id := 2, nome := "Tiago Nunes", dt_nascimento := none,
    dt_inicio := 20231011, dt_fim := none, dt_coleta := 20240901 }

/-- A match row with a given id, date and outcome, with a score consistent
with the outcome; used for concrete aggregation examples. -/
def partidaCom (i : Nat) (r : String) : Partida :=
  { id := i, competicao := "Campeonato Brasileiro Série A",
    rodada := toString i, dia := "sáb.", data := 20240500 + i,
    horario := "16:00", «local» := "C", ranking := some 1,
    adversario := some "Palmeiras", ranking_adversario := some 2,
    sistema := "4-2-3-1", publico := some 35000,
    gols := some (if r = "V" then 2 else if r = "E" then 1 else 0),
    gols_adversario := some (if r = "V" then 0 else 1),
    resultado := some r, dt_coleta := 20250101 }

/-- Ten matches with 6 wins, 2 draws and 2 losses (the spec's example). -/
def exemploDezPartidas : List Partida :=
  [partidaCom 1 "V", partidaCom 2 "V", partidaCom 3 "V", partidaCom 4 "V",
   partidaCom 5 "V", partidaCom 6 "V", partidaCom 7 "E", partidaCom 8 "E",
   partidaCom 9 "D", partidaCom 10 "D"]

/-- A scraped home-row with score text `"3:1"`. -/
def exemploCasa : LinhaBruta :=
  { competicao := "Campeonato Brasileiro Série A", rodada := "7",
    data := "sáb. 18/05/2024", horario := "16:00", «local» := "C",
    ranking := "3.", adversario := "Palmeiras (2.)", sistema := "4-2-3-1",
    publico := "45.000", resultado := "3:1" }

/-- The same scraped row marked as an away match. -/
def exemploFora : LinhaBruta :=
  { competicao := "Campeonato Brasileiro Série A", rodada := "7",
    data := "sáb. 18/05/2024", horario := "16:00", «local» := "F",
    ranking := "3.", adversario := "Palmeiras (2.)", sistema := "4-2-3-1",
    publico := "45.000", resultado := "3:1" }

/-- A scraped row whose score is the not-yet-played placeholder. -/
def exemploPlaceholder : LinhaBruta :=
  { competicao := "Campeonato Brasileiro Série A", rodada := "10",
    data := "sáb. 25/05/2024", horario := "18:30", «local» := "C",
    ranking := "3.", adversario := "Cruzeiro (8.)", sistema := "4-2-3-1",
    publico := "", resultado := "-:-" }

/-- A scraped row with a malformed (non-numeric, non-placeholder) score. -/
def exemploMalformado : LinhaBruta :=
  { competicao := "Campeonato Brasileiro Série A", rodada := "11",
    data := "qua. 29/05/2024", horario := "19:00", «local» := "C",
    ranking := "3.", adversario := "Grêmio (10.)", sistema := "4-2-3-1",
    publico := "20.000", resultado := "adiado" }

/-- A stored match row, with `dia = "sáb."`. -/
def partidaArmazenada : Partida :=
  { id := 1, competicao := "Campeonato Brasileiro Série A", rodada := "1",
    dia := "sáb.", data := 20240413, horario := "18:30", «local» := "C",
    ranking := some 3, adversario := some "Cruzeiro",
    ranking_adversario := some 8, sistema := "4-4-2", publico := some 30000,
    gols := none, gols_adversario := none, resultado := none,
    dt_coleta := 20240413 }

/-- An incoming record with the same natural key but every other field
different, in particular `dia = "dom."`. -/
def novaPartidaEntrada : NovaPartida :=
  { competicao := "Campeonato Brasileiro Série A", rodada := "1",
    dia := "dom.", data := 20240413, horario := "16:00", «local» := "C",
    ranking := some 4, adversario := some "Cruzeiro",
    ranking_adversario := some 7, sistema := "4-3-3", publico := some 41000,
    gols := some 3, gols_adversario := some 2, resultado := some "V" }

/-- A match attributed to no tenure (dated before every tenure interval). -/
def partidaSemTecnico : Partida :=
  { id := 3, competicao := "Campeonato Carioca", rodada := "2",
    dia := "qua.", data := 20230201, horario := "20:00", «local» := "F",
    ranking := none, adversario := some "Vasco da Gama",
    ranking_adversario := none, sistema := "4-4-2", publico := some 15000,
    gols := some 1, gols_adversario := some 1, resultado := some "E",
    dt_coleta := 20240901 }

/- ------------------------------------------------------------------ -/
/-! Theorems. -/

theorem ativo_iff (t : Tecnico) (d : Data) :
    ativo t d = true ↔
      t.dt_inicio ≤ d ∧ (t.dt_fim = none ∨ ∃ fim, t.dt_fim = some fim ∧ fim ≥ d) := by
  cases h : t.dt_fim with
  | none => simp [ativo, h]
  | some fim => simp [ativo, h]

theorem mem_joinTecnico_some (ts : List Tecnico) (p q : Partida) (t : Tecnico) :
    (q, some t) ∈ joinTecnico ts p ↔ q = p ∧ t ∈ ts ∧ ativo t p.data = true := by
  unfold joinTecnico
  cases h : ts.filter (fun t => ativo t p.data) with
  | nil =>
      constructor
      · intro hm; simp at hm
      · rintro ⟨-, ht, hat⟩
        have hmem : t ∈ ts.filter (fun t => ativo t p.data) :=
          List.mem_filter.mpr ⟨ht, by simpa using hat⟩
        rw [h] at hmem
        simp at hmem
  | cons a l =>
      constructor
      · intro hm
        obtain ⟨t', ht', heq⟩ := List.mem_map.mp hm
        have hq : p = q := congrArg Prod.fst heq
        have ht2 : t' = t := Option.some_injective _ (congrArg Prod.snd heq)
        have hmem : t' ∈ ts.filter (fun t => ativo t p.data) := by
          rw [h]; exact ht'
        rw [List.mem_filter] at hmem
        rw [← ht2]
        exact ⟨hq.symm, hmem.1, by simpa using hmem.2⟩
      · rintro ⟨hq, ht, hat⟩
        have hmem : t ∈ ts.filter (fun t => ativo t p.data) :=
          List.mem_filter.mpr ⟨ht, by simpa using hat⟩
        rw [h] at hmem
        exact List.mem_map.mpr ⟨t, hmem, by rw [hq]⟩

theorem mem_leftJoin_some (ps : List Partida) (ts : List Tecnico)
    (p : Partida) (t : Tecnico) :
    (p, some t) ∈ leftJoinPartidas ps ts ↔
      p ∈ ps ∧ t ∈ ts ∧ ativo t p.data = true := by
  unfold leftJoinPartidas
  rw [List.mem_flatMap]
  constructor
  · rintro ⟨q, hq, hm⟩
    obtain ⟨rfl, ht, hat⟩ := (mem_joinTecnico_some ts q p t).mp hm
    exact ⟨hq, ht, hat⟩
  · rintro ⟨hp, ht, hat⟩
    exact ⟨p, hp, (mem_joinTecnico_some ts p p t).mpr ⟨rfl, ht, hat⟩⟩

theorem mem_leftJoin_none (ps : List Partida) (ts : List Tecnico) (p : Partida) :
    (p, (none : Option Tecnico)) ∈ leftJoinPartidas ps ts ↔
      p ∈ ps ∧ ts.filter (fun t => ativo t p.data) = [] := by
  unfold leftJoinPartidas
  rw [List.mem_flatMap]
  constructor
  · rintro ⟨q, hq, hm⟩
    unfold joinTecnico at hm
    cases h : ts.filter (fun t => ativo t q.data) with
    | nil =>
        rw [h] at hm
        simp only [List.mem_singleton, Prod.mk.injEq] at hm
        obtain ⟨h1, -⟩ := hm
        subst h1
        exact ⟨hq, h⟩
    | cons a l =>
        rw [h] at hm
        simp only [List.mem_map, Prod.mk.injEq] at hm
        obtain ⟨t', -, -, hts⟩ := hm
        exact absurd hts (by simp)
  · rintro ⟨hp, h⟩
    refine ⟨p, hp, ?_⟩
    unfold joinTecnico
    rw [h]
    simp

/-- C1: the tenure-activity test used by attribution is exactly
`start_date <= match.date` and (`end_date` null or `end_date >= match.date`),
with both interval bounds inclusive: the example tenure ending 2024-05-01
is active on 2024-05-01 but not on 2024-05-02. -/
theorem C1_ativo_bounds :
    (∀ (ps : List Partida) (ts : List Tecnico) (p : Partida) (t : Tecnico),
      (p, some t) ∈ leftJoinPartidas ps ts ↔
        p ∈ ps ∧ t ∈ ts ∧
          (t.dt_inicio ≤ p.data ∧
            (t.dt_fim = none ∨ ∃ fim, t.dt_fim = some fim ∧ fim ≥ p.data))) ∧
    ativo tecnicoExemplo 20240501 = true ∧
    ativo tecnicoExemplo 20240502 = false := by
  refine ⟨?_, by decide, by decide⟩
  intro ps ts p t
  rw [mem_leftJoin_some, ativo_iff]

/-- C6 counterexample: a match dated inside two overlapping tenure
intervals is attributed to both — the join produces one row per active
tenure, with no deterministic pick; the row carrying the tenure with the
earlier `start_date` is present as well, although the claim's tie-break
(latest `start_date`, here the second tenure) would exclude it. -/
theorem C6_counterexample :
    leftJoinPartidas [partidaSobreposta] [tecnicoSobreposto1, tecnicoSobreposto2]
      = [(partidaSobreposta, some tecnicoSobreposto1),
         (partidaSobreposta, some tecnicoSobreposto2)] ∧
    tecnicoSobreposto1 ≠ tecnicoSobreposto2 ∧
    tecnicoSobreposto1.dt_inicio < tecnicoSobreposto2.dt_inicio := by
  refine ⟨by decide, by decide, by decide⟩

theorem length_filter_le_one_of_pairwise {α : Type} (p : α → Bool) (l : List α)
    (h : l.Pairwise (fun a b => ¬(p a = true ∧ p b = true))) :
    (l.filter p).length ≤ 1 := by
  induction l with
  | nil => simp
  | cons a t ih =>
    rw [List.pairwise_cons] at h
    rw [List.filter_cons]
    by_cases hp : p a = true
    · have ht : t.filter p = [] := by
        rw [List.filter_eq_nil_iff]
        intro b hb hpb
        exact h.1 b hb ⟨hp, hpb⟩
      simp [hp, ht]
    · simpa [hp] using ih h.2

theorem eq_of_mem_of_length_le_one {α : Type} {l : List α} (h : l.length ≤ 1)
    {a b : α} (ha : a ∈ l) (hb : b ∈ l) : a = b := by
  cases l with
  | nil => simp at ha
  | cons x xs =>
    cases xs with
    | nil =>
      simp only [List.mem_singleton] at ha hb
      rw [ha, hb]
    | cons y ys => simp at h

/-- C6 amended: the join has no tie-break; it yields one row per active
tenure, so a match is attributed to at most one tenure exactly when no two
listed tenures are simultaneously active on its date — in that case each
match produces exactly one joined row and its attributed tenure is unique. -/
theorem C6_amended (ps : List Partida) (ts : List Tecnico) (p : Partida)
    (hdisj : ts.Pairwise (fun t1 t2 => ¬(ativo t1 p.data = true ∧ ativo t2 p.data = true))) :
    (joinTecnico ts p).length = 1 ∧
    ∀ t1 t2 : Tecnico, (p, some t1) ∈ leftJoinPartidas ps ts →
      (p, some t2) ∈ leftJoinPartidas ps ts → t1 = t2 := by
  have hle : (ts.filter (fun t => ativo t p.data)).length ≤ 1 :=
    length_filter_le_one_of_pairwise _ _ hdisj
  constructor
  · unfold joinTecnico
    cases h : ts.filter (fun t => ativo t p.data) with
    | nil => rfl
    | cons a l =>
      rw [h] at hle
      cases l with
      | nil => rfl
      | cons b m => simp at hle
  · intro t1 t2 h1 h2
    obtain ⟨-, ht1, ha1⟩ := (mem_leftJoin_some ps ts p t1).mp h1
    obtain ⟨-, ht2, ha2⟩ := (mem_leftJoin_some ps ts p t2).mp h2
    exact eq_of_mem_of_length_le_one hle
      (List.mem_filter.mpr ⟨ht1, by simpa using ha1⟩)
      (List.mem_filter.mpr ⟨ht2, by simpa using ha2⟩)

theorem C6_amended_witness :
    (joinTecnico [tecnicoDisjunto1, tecnicoDisjunto2] partidaSobreposta).length = 1 :=
  (C6_amended [] [tecnicoDisjunto1, tecnicoDisjunto2] partidaSobreposta (by decide)).1

theorem pontos_eq_tres_vitorias_mais_empates (ps : List Partida) :
    (ps.map (fun p => pontosDe p.resultado)).sum =
      3 * ps.countP (fun p => p.resultado = some "V") +
        ps.countP (fun p => p.resultado = some "E") := by
  induction ps with
  | nil => rfl
  | cons p t ih =>
    rw [List.map_cons, List.sum_cons, List.countP_cons, List.countP_cons, ih]
    unfold pontosDe
    by_cases hv : p.resultado = some "V"
    · simp [hv]; omega
    · by_cases he : p.resultado = some "E"
      · simp [hv, he]; omega
      · simp [hv, he]

/-- C7: for any aggregate group, points conquered equal three per win plus
one per draw, possible points are three per game, and the percentage column
is `round(points / points_possible * 100, 2)` whenever the group has games;
on the spec's example of 10 games with 6 wins, 2 draws and 2 losses the
output is points 20, possible 30, percentage 66.67; on an empty group the
percentage is NULL (SQLite division by zero), not 0 and not an error. -/
theorem C7_aggregation :
    (∀ ps : List Partida,
      (agrega ps).pontos_conquistados =
          3 * (agrega ps).vitorias + (agrega ps).empates ∧
      (agrega ps).pontos_possiveis = 3 * (agrega ps).jogos ∧
      ((agrega ps).jogos ≠ 0 →
        (agrega ps).aproveitamento =
          some (round2 (((agrega ps).pontos_conquistados : ℚ) /
            ((agrega ps).pontos_possiveis : ℚ) * 100)))) ∧
    ((agrega exemploDezPartidas).jogos = 10 ∧
     (agrega exemploDezPartidas).vitorias = 6 ∧
     (agrega exemploDezPartidas).empates = 2 ∧
     (agrega exemploDezPartidas).derrotas = 2 ∧
     (agrega exemploDezPartidas).pontos_conquistados = 20 ∧
     (agrega exemploDezPartidas).pontos_possiveis = 30 ∧
     (agrega exemploDezPartidas).aproveitamento = some (6667 / 100 : ℚ)) ∧
    ((agrega []).aproveitamento = none ∧
     (agrega []).aproveitamento ≠ some 0) := by
  have hsum : (exemploDezPartidas.map (fun p => pontosDe p.resultado)).sum = 20 := by
    decide
  have hlen : exemploDezPartidas.length = 10 := by decide
  have haprov : (agrega exemploDezPartidas).aproveitamento = some (6667 / 100 : ℚ) := by
    simp only [agrega, hsum, hlen]
    norm_num [round2]
  refine ⟨?_, ⟨by decide, by decide, by decide, by decide, by decide, by decide, haprov⟩,
    by simp [agrega], by simp [agrega]⟩
  intro ps
  refine ⟨pontos_eq_tres_vitorias_mais_empates ps,
    mul_comm ps.length 3, ?_⟩
  intro hj
  have hl : ps.length ≠ 0 := hj
  have hne : ps.length * 3 ≠ 0 := by omega
  have heq : (agrega ps).aproveitamento =
      some (round2 ((((ps.map (fun p => pontosDe p.resultado)).sum : ℚ) * 100) /
        ((ps.length : ℚ) * 3))) := by
    simp only [agrega, if_neg hne]
  have harg : (((ps.map (fun p => pontosDe p.resultado)).sum : ℚ) * 100) /
      ((ps.length : ℚ) * 3) =
      ((agrega ps).pontos_conquistados : ℚ) /
        ((agrega ps).pontos_possiveis : ℚ) * 100 := by
    show _ = (((ps.map (fun p => pontosDe p.resultado)).sum : ℚ)) /
      ((ps.length * 3 : ℕ) : ℚ) * 100
    have hq : ((ps.length : ℚ) * 3) ≠ 0 := by
      have hln : (ps.length : ℚ) ≠ 0 := Nat.cast_ne_zero.mpr hl
      positivity
    push_cast
    field_simp
  rw [heq, harg]

theorem C7_aggregation_witness :
    (agrega exemploDezPartidas).aproveitamento =
      some (round2 (((agrega exemploDezPartidas).pontos_conquistados : ℚ) /
        ((agrega exemploDezPartidas).pontos_possiveis : ℚ) * 100)) :=
  (C7_aggregation.1 exemploDezPartidas).2.2 (by decide)

theorem fst_of_mem_joinTecnico (ts : List Tecnico) (q : Partida)
    (j : Partida × Option Tecnico) (hj : j ∈ joinTecnico ts q) : j.1 = q := by
  unfold joinTecnico at hj
  cases h : ts.filter (fun t => ativo t q.data) with
  | nil =>
    rw [h] at hj
    simp only [List.mem_singleton] at hj
    rw [hj]
  | cons a l =>
    rw [h] at hj
    obtain ⟨t, -, rfl⟩ := List.mem_map.mp hj
    rfl

theorem joinTecnico_grupo_nulo (ts : List Tecnico) (p : Partida) :
    ((joinTecnico ts p).filter (fun j => j.1.resultado.isSome)).filter
        (fun j => chaveGrupo j.2 = none)
      = if p.resultado.isSome && (ts.filter (fun t => ativo t p.data)).isEmpty
        then [(p, none)] else [] := by
  unfold joinTecnico
  cases h : ts.filter (fun t => ativo t p.data) with
  | nil =>
    by_cases hr : p.resultado.isSome
    · simp [List.filter_cons, hr, chaveGrupo]
    · simp [List.filter_cons, hr, chaveGrupo]
  | cons a l =>
    have hnil : (((((a :: l).map (fun t => (p, some t)))).filter
        (fun j => j.1.resultado.isSome)).filter
          (fun j => chaveGrupo j.2 = none)) = [] := by
      rw [List.filter_eq_nil_iff]
      intro j hj
      have hj' := List.mem_of_mem_filter hj
      obtain ⟨t, -, rfl⟩ := List.mem_map.mp hj'
      simp [chaveGrupo]
    rw [hnil]
    simp

theorem filtro_grupo_nulo (ps : List Partida) (ts : List Tecnico) :
    (linhasEstatisticas ps ts).filter (fun j => chaveGrupo j.2 = none)
      = (ps.filter (fun p => p.resultado.isSome &&
          (ts.filter (fun t => ativo t p.data)).isEmpty)).map
          (fun p => (p, (none : Option Tecnico))) := by
  induction ps with
  | nil => rfl
  | cons p ps ih =>
    unfold linhasEstatisticas leftJoinPartidas at *
    rw [List.flatMap_cons, List.filter_append, List.filter_append, List.filter_cons]
    by_cases hp : p.resultado.isSome && (ts.filter (fun t => ativo t p.data)).isEmpty
    · rw [joinTecnico_grupo_nulo, if_pos hp, ih]
      simp [hp]
    · rw [joinTecnico_grupo_nulo, if_neg hp, ih]
      simp [hp]

theorem maiorData_mem : ∀ (js : List (Partida × Option Tecnico))
    (r : Partida × Option Tecnico), maiorData js = some r → r ∈ js := by
  intro js
  induction js with
  | nil => intro r h; simp [maiorData] at h
  | cons j js ih =>
    intro r h
    cases hm : maiorData js with
    | none =>
      simp only [maiorData, hm, Option.some.injEq] at h
      rw [← h]
      exact List.mem_cons_self ..
    | some m =>
      simp only [maiorData, hm] at h
      by_cases hc : j.1.data ≥ m.1.data
      · rw [if_pos hc] at h
        simp only [Option.some.injEq] at h
        rw [← h]
        exact List.mem_cons_self ..
      · rw [if_neg hc] at h
        simp only [Option.some.injEq] at h
        rw [← h]
        exact List.mem_cons_of_mem _ (ih m hm)

theorem maiorData_eq_none : ∀ (js : List (Partida × Option Tecnico)),
    maiorData js = none → js = [] := by
  intro js h
  cases js with
  | nil => rfl
  | cons b bs =>
    exfalso
    cases h2 : maiorData bs with
    | none => simp [maiorData, h2] at h
    | some m2 =>
      simp only [maiorData, h2] at h
      by_cases hc : b.1.data ≥ m2.1.data
      · rw [if_pos hc] at h; simp at h
      · rw [if_neg hc] at h; simp at h

theorem maiorData_max_unico : ∀ (js : List (Partida × Option Tecnico))
    (x : Partida × Option Tecnico), x ∈ js →
    (∀ j ∈ js, j = x ∨ j.1.data < x.1.data) → maiorData js = some x := by
  intro js
  induction js with
  | nil => intro x hx; simp at hx
  | cons j js ih =>
    intro x hx hdom
    cases hm : maiorData js with
    | none =>
      have hjs : js = [] := maiorData_eq_none js hm
      subst hjs
      simp only [List.mem_singleton] at hx
      simp [maiorData, hx]
    | some m =>
      have hmmem : m ∈ js := maiorData_mem js m hm
      simp only [maiorData, hm]
      rcases hdom j (List.mem_cons_self ..) with hj | hj
      · rcases hdom m (List.mem_cons_of_mem _ hmmem) with hm2 | hm2
        · rw [hm2, hj, if_pos (le_refl _)]
        · rw [if_pos (by rw [hj]; exact le_of_lt hm2), hj]
      · have hxjs : x ∈ js := by
          rcases List.mem_cons.mp hx with h1 | h1
          · exact absurd h1.symm (fun he => by rw [he] at hj; exact lt_irrefl _ hj)
          · exact h1
        have hms : maiorData js = some x :=
          ih x hxjs (fun i hi => hdom i (List.mem_cons_of_mem _ hi))
        rw [hm] at hms
        have hmx : m = x := Option.some_injective _ hms
        rw [if_neg (by rw [hmx]; exact not_le.mpr hj), hmx]

/-- C10: a stored match inside no tenure interval still appears — in the
match listing as a joined row with NULL tenure columns, in the statistics
as a member of the all-NULL group (whose members are exactly the
unattributed matches with a known outcome, so a "no coach" aggregate row
exists alongside the per-coach rows), and as the latest-match result when
it has the most recent date. -/
theorem C10_no_coach :
    (∀ (ps : List Partida) (ts : List Tecnico) (p : Partida),
      p ∈ ps → ts.filter (fun t => ativo t p.data) = [] →
        (p, (none : Option Tecnico)) ∈ leftJoinPartidas ps ts) ∧
    (∀ (ps : List Partida) (ts : List Tecnico),
      (linhasEstatisticas ps ts).filter (fun j => chaveGrupo j.2 = none)
        = (ps.filter (fun p => p.resultado.isSome &&
            (ts.filter (fun t => ativo t p.data)).isEmpty)).map
            (fun p => (p, (none : Option Tecnico)))) ∧
    (∀ (ps : List Partida) (ts : List Tecnico) (p : Partida),
      p ∈ ps → p.resultado.isSome = true →
      ts.filter (fun t => ativo t p.data) = [] →
        ((none : Option (Nat × String × Data × Option Data)),
          (linhasEstatisticas ps ts).filter (fun j => chaveGrupo j.2 = none))
          ∈ grupos ps ts) ∧
    (∀ (ps : List Partida) (ts : List Tecnico) (p : Partida),
      p ∈ ps → ts.filter (fun t => ativo t p.data) = [] →
      (∀ q ∈ ps, q = p ∨ q.data < p.data) →
        ultimaPartida ps ts = some (p, none)) := by
  refine ⟨?_, filtro_grupo_nulo, ?_, ?_⟩
  · intro ps ts p hp hf
    exact (mem_leftJoin_none ps ts p).mpr ⟨hp, hf⟩
  · intro ps ts p hp hr hf
    unfold grupos
    have hjmem : (p, (none : Option Tecnico)) ∈ linhasEstatisticas ps ts := by
      unfold linhasEstatisticas
      exact List.mem_filter.mpr
        ⟨(mem_leftJoin_none ps ts p).mpr ⟨hp, hf⟩, by simpa using hr⟩
    have hk : (none : Option (Nat × String × Data × Option Data)) ∈
        ((linhasEstatisticas ps ts).map (fun j => chaveGrupo j.2)).dedup := by
      rw [List.mem_dedup]
      exact List.mem_map.mpr ⟨(p, none), hjmem, rfl⟩
    exact List.mem_map.mpr ⟨none, hk, rfl⟩
  · intro ps ts p hp hf hdom
    unfold ultimaPartida
    apply maiorData_max_unico
    · exact (mem_leftJoin_none ps ts p).mpr ⟨hp, hf⟩
    · intro j hj
      unfold leftJoinPartidas at hj
      obtain ⟨q, hq, hjq⟩ := List.mem_flatMap.mp hj
      have hfst : j.1 = q := fst_of_mem_joinTecnico ts q j hjq
      rcases hdom q hq with h1 | h1
      · subst h1
        left
        unfold joinTecnico at hjq
        rw [hf] at hjq
        simpa using hjq
      · right
        rw [hfst]; exact h1

theorem C10_no_coach_witness :
    (partidaSemTecnico, (none : Option Tecnico)) ∈
      leftJoinPartidas [partidaSemTecnico] [tecnicoDisjunto1] ∧
    ultimaPartida [partidaSemTecnico] [tecnicoDisjunto1]
      = some (partidaSemTecnico, none) :=
  ⟨C10_no_coach.1 [partidaSemTecnico] [tecnicoDisjunto1] partidaSemTecnico
      (by decide) (by decide),
   C10_no_coach.2.2.2 [partidaSemTecnico] [tecnicoDisjunto1] partidaSemTecnico
      (by decide) (by decide) (by decide)⟩

theorem pySplit_ne_nil (sep : Char) : ∀ l : List Char, pySplit sep l ≠ [] := by
  intro l
  cases l with
  | nil => simp [pySplit]
  | cons c cs =>
    cases h : pySplit sep cs with
    | nil => simp [pySplit, h]
    | cons p ps =>
      by_cases hc : c = sep
      · simp [pySplit, h, hc]
      · simp [pySplit, h, hc]

theorem pySplit_sem_sep (sep : Char) : ∀ l : List Char, sep ∉ l → pySplit sep l = [l] := by
  intro l
  induction l with
  | nil => intro h; rfl
  | cons c cs ih =>
    intro h
    have hc : ¬(c = sep) := fun he => h (by rw [← he]; exact List.mem_cons_self ..)
    have hcs : sep ∉ cs := fun hm => h (List.mem_cons_of_mem _ hm)
    simp [pySplit, ih hcs, hc]

theorem pySplit_concat (sep : Char) : ∀ (l1 l2 : List Char), sep ∉ l1 →
    pySplit sep (l1 ++ sep :: l2) = l1 :: pySplit sep l2 := by
  intro l1
  induction l1 with
  | nil =>
    intro l2 h
    show pySplit sep (sep :: l2) = [] :: pySplit sep l2
    cases h2 : pySplit sep l2 with
    | nil => exact absurd h2 (pySplit_ne_nil sep l2)
    | cons p ps => simp [pySplit, h2]
  | cons c cs ih =>
    intro l2 h
    have hc : ¬(c = sep) := fun he => h (by rw [← he]; exact List.mem_cons_self ..)
    have hcs : sep ∉ cs := fun hm => h (List.mem_cons_of_mem _ hm)
    have ih2 := ih l2 hcs
    show pySplit sep (c :: (cs ++ sep :: l2)) = (c :: cs) :: pySplit sep l2
    cases h2 : pySplit sep (cs ++ sep :: l2) with
    | nil => exact absurd h2 (pySplit_ne_nil sep (cs ++ sep :: l2))
    | cons p ps =>
      rw [h2] at ih2
      injection ih2 with hp hps
      simp [pySplit, h2, hc, hp, hps]

/-- C2: for a parsed row whose raw score text decomposes as `sx ++ ":" ++ sy`
(single colon), a home venue marker (`local == "C"`) assigns the left piece
to own goals and the right piece to opponent goals, and any other venue
marker swaps them; concretely, a home row with score `"3:1"` converts to
own 3, opponent 1, outcome WIN, and the same score on an away row converts
to own 1, opponent 3, outcome LOSS. -/
theorem C2_score_sides :
    (∀ (r : LinhaBruta) (sx sy : List Char),
      r.resultado.data = sx ++ ':' :: sy → ':' ∉ sx → ':' ∉ sy →
        ((montaLinha r).gols, (montaLinha r).gols_adversario)
          = if r.«local» = "C" then (some (⟨sx⟩ : String), some (⟨sy⟩ : String))
            else (some ⟨sy⟩, some ⟨sx⟩)) ∧
    ((converte parseNada (montaLinha exemploCasa)).gols = some 3 ∧
     (converte parseNada (montaLinha exemploCasa)).gols_adversario = some 1 ∧
     (converte parseNada (montaLinha exemploCasa)).resultado = some "V") ∧
    ((converte parseNada (montaLinha exemploFora)).gols = some 1 ∧
     (converte parseNada (montaLinha exemploFora)).gols_adversario = some 3 ∧
     (converte parseNada (montaLinha exemploFora)).resultado = some "D") := by
  refine ⟨?_, by decide, by decide⟩
  intro r sx sy h hx hy
  have hsplit : pySplit ':' r.resultado.data = sx :: pySplit ':' sy := by
    rw [h]; exact pySplit_concat ':' sx sy hx
  have hsy : pySplit ':' sy = [sy] := pySplit_sem_sep ':' sy hy
  have hprim : primeiraParte ':' r.resultado = ⟨sx⟩ := by
    unfold primeiraParte
    rw [hsplit]
    rfl
  have hult : ultimaParte ':' r.resultado = ⟨sy⟩ := by
    unfold ultimaParte
    rw [hsplit, hsy]
    rfl
  have hne : r.resultado ≠ "" := by
    intro he
    rw [he] at h
    simp at h
  have hcontem : contem ':' r.resultado = true := by
    unfold contem
    rw [h]
    simp
  by_cases hl : r.«local» = "C"
  · simp only [montaLinha, hl, if_pos, if_true, hprim, hult]
  · simp only [montaLinha, hl]
    simp [hne, hcontem, hprim, hult]

theorem C2_score_sides_witness :
    ((montaLinha exemploCasa).gols, (montaLinha exemploCasa).gols_adversario)
      = if exemploCasa.«local» = "C"
        then (some (⟨['3']⟩ : String), some (⟨['1']⟩ : String))
        else (some ⟨['1']⟩, some ⟨['3']⟩) :=
  C2_score_sides.1 exemploCasa ['3'] ['1'] (by decide) (by decide) (by decide)

/-- C3: the derived outcome column equals WIN / DRAW / LOSS exactly by the
comparison of the two goal counts when both are present, and is NULL
exactly when either count is NULL; and every record produced by the
conversion step carries `resultado` computed this way from its own goal
columns. -/
theorem C3_outcome_invariant :
    (∀ g ga : Option Int,
      (calculaResultado g ga = some "V" ↔ ∃ x y, g = some x ∧ ga = some y ∧ x > y) ∧
      (calculaResultado g ga = some "E" ↔ ∃ x y, g = some x ∧ ga = some y ∧ x = y) ∧
      (calculaResultado g ga = some "D" ↔ ∃ x y, g = some x ∧ ga = some y ∧ x < y) ∧
      (calculaResultado g ga = none ↔ g = none ∨ ga = none)) ∧
    (∀ (parseData : String → Option Data) (l : Linha),
      (converte parseData l).resultado =
        calculaResultado (converte parseData l).gols
          (converte parseData l).gols_adversario) := by
  constructor
  · rintro (_ | x) (_ | y)
    · simp [calculaResultado, maiorOpt, igualOpt]
    · simp [calculaResultado, maiorOpt, igualOpt]
    · simp [calculaResultado, maiorOpt, igualOpt]
    · rcases lt_trichotomy x y with h | h | h
      · have h1 : ¬(x > y) := by omega
        have h2 : ¬(x = y) := by omega
        refine ⟨?_, ?_, ?_, ?_⟩ <;>
          simp [calculaResultado, maiorOpt, igualOpt, h, h1, h2]
      · have h1 : ¬(x > y) := by omega
        refine ⟨?_, ?_, ?_, ?_⟩ <;>
          simp [calculaResultado, maiorOpt, igualOpt, h, h1]
      · have h2 : ¬(x = y) := by omega
        have h3 : ¬(x < y) := by omega
        refine ⟨?_, ?_, ?_, ?_⟩ <;>
          simp [calculaResultado, maiorOpt, igualOpt, h, h2, h3]
  · intro parseData l
    rfl

/-- C8 counterexample: a parsed row whose score is the placeholder `-:-` is
not stored at all — the cleaning step (line 130) drops it before the upsert
loop, so the pipeline emits no record for it and nothing reaches the match
table. -/
theorem C8_counterexample :
    pipeline parseNada [exemploPlaceholder] = [] ∧
    (montaLinha exemploPlaceholder).resultado = "-:-" := by
  exact ⟨by decide, by decide⟩

/-- C8 amended: only rows whose score text is exactly the placeholder `-:-`
are dropped before storage; a row with any other malformed score is kept by
the cleaning step and stored with NULL goals and NULL outcome, is excluded
from every aggregate (the statistics rows all have a non-NULL outcome), and
remains retrievable by the plain match queries (every stored match yields a
joined listing row). -/
theorem C8_amended (parseData : String → Option Data) (rs : List LinhaBruta)
    (r : LinhaBruta) (hmem : r ∈ rs)
    (hcomp : r.competicao ≠ "Os últimos  jogos")
    (hres : r.resultado ≠ "-:-") :
    converte parseData (montaLinha r) ∈ pipeline parseData rs ∧
    (((montaLinha r).gols.bind toNumeric = none ∨
      (montaLinha r).gols_adversario.bind toNumeric = none) →
        (converte parseData (montaLinha r)).resultado = none) ∧
    (∀ (ps : List Partida) (ts : List Tecnico) (j : Partida × Option Tecnico),
      j ∈ linhasEstatisticas ps ts → j.1.resultado ≠ none) ∧
    (∀ (ps : List Partida) (ts : List Tecnico) (p : Partida), p ∈ ps →
      ∃ o, (p, o) ∈ leftJoinPartidas ps ts) := by
  refine ⟨?_, ?_, ?_, ?_⟩
  · unfold pipeline limpeza
    refine List.mem_map.mpr ⟨montaLinha r, ?_, rfl⟩
    refine List.mem_filter.mpr ⟨List.mem_filter.mpr ⟨List.mem_map.mpr ⟨r, hmem, rfl⟩, ?_⟩, ?_⟩
    · simpa [montaLinha] using hcomp
    · simpa [montaLinha] using hres
  · intro hnull
    show calculaResultado _ _ = none
    rcases hnull with h | h
    · rw [h]
      cases (montaLinha r).gols_adversario.bind toNumeric with
      | none => rfl
      | some y => rfl
    · rw [h]
      cases (montaLinha r).gols.bind toNumeric with
      | none => rfl
      | some x =>
        simp [calculaResultado, maiorOpt, igualOpt]
  · intro ps ts j hj
    have := (List.mem_filter.mp hj).2
    simp only [Option.isSome_iff_ne_none] at this
    simpa using this
  · intro ps ts p hp
    cases h : ts.filter (fun t => ativo t p.data) with
    | nil => exact ⟨none, (mem_leftJoin_none ps ts p).mpr ⟨hp, h⟩⟩
    | cons a l =>
      refine ⟨some a, (mem_leftJoin_some ps ts p a).mpr ⟨hp, ?_, ?_⟩⟩
      · have : a ∈ ts.filter (fun t => ativo t p.data) := by
          rw [h]; exact List.mem_cons_self ..
        exact (List.mem_filter.mp this).1
      · have : a ∈ ts.filter (fun t => ativo t p.data) := by
          rw [h]; exact List.mem_cons_self ..
        simpa using (List.mem_filter.mp this).2

theorem C8_amended_witness :
    converte parseNada (montaLinha exemploMalformado) ∈
      pipeline parseNada [exemploMalformado] ∧
    (converte parseNada (montaLinha exemploMalformado)).resultado = none :=
  ⟨(C8_amended parseNada [exemploMalformado] exemploMalformado
      (List.mem_singleton.mpr rfl) (by decide) (by decide)).1,
   (C8_amended parseNada [exemploMalformado] exemploMalformado
      (List.mem_singleton.mpr rfl) (by decide) (by decide)).2.1
      (Or.inl (by decide))⟩

namespace Tabela

variable {R N K : Type} [DecidableEq K] (T : Tabela R N K)

theorem ingere_nil (d : Data) (s : Banco R) : T.ingere d s [] = s := rfl

theorem ingere_cons (d : Data) (s : Banco R) (n : N) (t : List N) :
    T.ingere d s (n :: t) = T.ingere d (T.upsert d s n) t := rfl

theorem temChave_mono (d : Data) (s : Banco R) (n : N) (k : K)
    (h : T.temChave s.linhas k = true) :
    T.temChave (T.upsert d s n).linhas k = true := by
  unfold upsert
  by_cases hc : T.temChave s.linhas (T.chaveN n) = true
  · rw [if_pos hc]
    unfold temChave at h ⊢
    rw [List.any_eq_true] at h ⊢
    obtain ⟨r, hr, hk⟩ := h
    refine ⟨if T.chaveR r = T.chaveN n then T.aplica d n r else r,
      List.mem_map_of_mem _ hr, ?_⟩
    by_cases he : T.chaveR r = T.chaveN n
    · rw [if_pos he]
      simpa [T.chave_aplica] using hk
    · rw [if_neg he]; exact hk
  · rw [if_neg hc]
    unfold temChave at h ⊢
    rw [List.any_eq_true] at h ⊢
    obtain ⟨r, hr, hk⟩ := h
    exact ⟨r, List.mem_append_left _ hr, hk⟩

theorem temChave_upsert_self (d : Data) (s : Banco R) (n : N) :
    T.temChave (T.upsert d s n).linhas (T.chaveN n) = true := by
  unfold upsert
  by_cases hc : T.temChave s.linhas (T.chaveN n) = true
  · rw [if_pos hc]
    unfold temChave at hc ⊢
    rw [List.any_eq_true] at hc ⊢
    obtain ⟨r, hr, hk⟩ := hc
    have hk' : T.chaveR r = T.chaveN n := by simpa using hk
    refine ⟨if T.chaveR r = T.chaveN n then T.aplica d n r else r,
      List.mem_map_of_mem _ hr, ?_⟩
    rw [if_pos hk']
    simp [T.chave_aplica, hk']
  · rw [if_neg hc]
    unfold temChave
    rw [List.any_eq_true]
    exact ⟨T.insere s.proximoId d n,
      List.mem_append_right _ (List.mem_singleton.mpr rfl),
      by simp [T.chave_insere]⟩

theorem temChave_ingere_mono (d : Data) (b : List N) : ∀ (s : Banco R) (k : K),
    T.temChave s.linhas k = true → T.temChave (T.ingere d s b).linhas k = true := by
  induction b with
  | nil => intro s k h; exact h
  | cons n t ih =>
    intro s k h
    rw [ingere_cons]
    exact ih _ _ (T.temChave_mono d s n k h)

theorem chaves_presentes (d : Data) (b : List N) : ∀ (s : Banco R) (n : N), n ∈ b →
    T.temChave (T.ingere d s b).linhas (T.chaveN n) = true := by
  induction b with
  | nil => intro s n h; simp at h
  | cons m t ih =>
    intro s n h
    rcases List.mem_cons.mp h with h1 | h1
    · subst h1
      rw [ingere_cons]
      exact T.temChave_ingere_mono d t _ _ (T.temChave_upsert_self d s n)
    · rw [ingere_cons]
      exact ih _ n h1

theorem aplicaLote_nil (d : Data) (r : R) : T.aplicaLote d [] r = r := rfl

theorem aplicaLote_passo (d : Data) (n : N) (t : List N) (r : R) :
    T.aplicaLote d t (if T.chaveR r = T.chaveN n then T.aplica d n r else r)
      = T.aplicaLote d (n :: t) r := by
  by_cases hk : T.chaveR r = T.chaveN n
  · rw [if_pos hk]
    unfold aplicaLote ultimaCom
    rw [T.chave_aplica, List.filter_cons, if_pos (by simp [hk.symm])]
    cases hft : t.filter (fun m => T.chaveN m = T.chaveR r) with
    | nil => simp
    | cons a l =>
      rw [List.getLast?_cons_cons]
      cases hgl : (a :: l).getLast? with
      | none => simp at hgl
      | some m =>
        simp only []
        rw [T.aplica_aplica]
  · rw [if_neg hk]
    unfold aplicaLote ultimaCom
    rw [List.filter_cons, if_neg (by simp; exact fun he => hk he.symm)]

theorem temChave_mapa (d : Data) (n : N) (k : K) : ∀ ls : List R,
    T.temChave (ls.map (fun r => if T.chaveR r = T.chaveN n then T.aplica d n r else r)) k
      = T.temChave ls k := by
  intro ls
  unfold temChave
  induction ls with
  | nil => rfl
  | cons r rs ih =>
    simp only [List.map_cons, List.any_cons, ih]
    congr 1
    by_cases he : T.chaveR r = T.chaveN n
    · rw [if_pos he]; simp [T.chave_aplica]
    · rw [if_neg he]

theorem ingere_todas_presentes (d : Data) : ∀ (b : List N) (s : Banco R),
    (∀ n ∈ b, T.temChave s.linhas (T.chaveN n) = true) →
    T.ingere d s b = ⟨s.linhas.map (T.aplicaLote d b), s.proximoId⟩ := by
  intro b
  induction b with
  | nil =>
    intro s h
    rw [ingere_nil]
    have hmap : s.linhas.map (T.aplicaLote d []) = s.linhas := by
      have h2 : s.linhas.map (T.aplicaLote d []) = s.linhas.map id :=
        List.map_congr_left (fun r _ => T.aplicaLote_nil d r)
      rw [h2, List.map_id]
    rw [hmap]
  | cons n t ih =>
    intro s h
    rw [ingere_cons]
    have hn := h n (List.mem_cons_self ..)
    have hup : T.upsert d s n =
        ⟨s.linhas.map (fun r => if T.chaveR r = T.chaveN n then T.aplica d n r else r),
         s.proximoId⟩ := by
      unfold upsert; rw [if_pos hn]
    rw [hup]
    have hpres : ∀ m ∈ t,
        T.temChave (s.linhas.map
          (fun r => if T.chaveR r = T.chaveN n then T.aplica d n r else r)) (T.chaveN m)
          = true := by
      intro m hm
      rw [T.temChave_mapa d n (T.chaveN m) s.linhas]
      exact h m (List.mem_cons_of_mem _ hm)
    rw [ih ⟨_, s.proximoId⟩ hpres]
    rw [List.map_map]
    have : ∀ r ∈ s.linhas,
        (T.aplicaLote d t ∘ fun r =>
          if T.chaveR r = T.chaveN n then T.aplica d n r else r) r
          = T.aplicaLote d (n :: t) r :=
      fun r _ => T.aplicaLote_passo d n t r
    rw [List.map_congr_left this]

theorem marca_upsert_chave (d : Data) (s : Banco R) (n : N) :
    ∀ r ∈ (T.upsert d s n).linhas, T.chaveR r = T.chaveN n →
      ∀ d', T.marca (T.aplica d' n r) = T.marca r := by
  intro r hr hk d'
  unfold upsert at hr
  by_cases hc : T.temChave s.linhas (T.chaveN n) = true
  · rw [if_pos hc] at hr
    obtain ⟨r0, hr0, heq⟩ := List.mem_map.mp hr
    by_cases he : T.chaveR r0 = T.chaveN n
    · rw [if_pos he] at heq
      rw [← heq, T.aplica_aplica]
      exact T.marca_aplica d' d n r0
    · rw [if_neg he] at heq
      rw [← heq] at hk
      exact absurd hk he
  · rw [if_neg hc] at hr
    rcases List.mem_append.mp hr with h1 | h1
    · exfalso
      apply hc
      unfold temChave
      rw [List.any_eq_true]
      exact ⟨r, h1, by simp [hk]⟩
    · have heq : r = T.insere s.proximoId d n := List.mem_singleton.mp h1
      rw [heq, T.aplica_insere]
      exact T.marca_insere d' d s.proximoId n

theorem filtro_chave_mapa (d : Data) (n : N) (k : K) (hnk : T.chaveN n ≠ k) :
    ∀ ls : List R,
    (ls.map (fun r => if T.chaveR r = T.chaveN n then T.aplica d n r else r)).filter
        (fun r => T.chaveR r = k)
      = ls.filter (fun r => T.chaveR r = k) := by
  intro ls
  induction ls with
  | nil => rfl
  | cons r rs ih =>
    simp only [List.map_cons, List.filter_cons]
    by_cases he : T.chaveR r = T.chaveN n
    · rw [if_pos he]
      have h1 : ¬(T.chaveR (T.aplica d n r) = k) := by
        rw [T.chave_aplica, he]; exact hnk
      have h2 : ¬(T.chaveR r = k) := by rw [he]; exact hnk
      simp [h1, h2, ih]
    · rw [if_neg he]
      by_cases h2 : T.chaveR r = k
      · simp [h2, ih]
      · simp [h2, ih]

theorem filtro_chave_ingere (d : Data) (k : K) : ∀ (b : List N),
    (∀ n ∈ b, T.chaveN n ≠ k) → ∀ (s : Banco R),
    (T.ingere d s b).linhas.filter (fun r => T.chaveR r = k)
      = s.linhas.filter (fun r => T.chaveR r = k) := by
  intro b
  induction b with
  | nil => intro hb s; rfl
  | cons n t ih =>
    intro hb s
    rw [ingere_cons, ih (fun m hm => hb m (List.mem_cons_of_mem _ hm))]
    unfold upsert
    by_cases hc : T.temChave s.linhas (T.chaveN n) = true
    · rw [if_pos hc]
      exact T.filtro_chave_mapa d n k (hb n (List.mem_cons_self ..)) s.linhas
    · rw [if_neg hc]
      show (s.linhas ++ [T.insere s.proximoId d n]).filter _ = _
      rw [List.filter_append]
      have : [T.insere s.proximoId d n].filter (fun r => T.chaveR r = k) = [] := by
        rw [List.filter_cons]
        rw [if_neg (by simp [T.chave_insere]; exact hb n (List.mem_cons_self ..))]
        rfl
      rw [this, List.append_nil]

theorem marca_fixa_ingere (d : Data) : ∀ (b : List N) (s : Banco R) (r : R),
    r ∈ (T.ingere d s b).linhas → ∀ m, T.ultimaCom b (T.chaveR r) = some m →
      ∀ d', T.marca (T.aplica d' m r) = T.marca r := by
  intro b
  induction b with
  | nil =>
    intro s r hr m hm
    simp [ultimaCom] at hm
  | cons n t ih =>
    intro s r hr m hm d'
    rw [ingere_cons] at hr
    cases hu : T.ultimaCom t (T.chaveR r) with
    | some m' =>
      have hnt : T.ultimaCom (n :: t) (T.chaveR r) = some m' := by
        unfold ultimaCom at hu ⊢
        rw [List.filter_cons]
        by_cases hn : T.chaveN n = T.chaveR r
        · rw [if_pos (by simp [hn])]
          cases hft : t.filter (fun x => T.chaveN x = T.chaveR r) with
          | nil => rw [hft] at hu; simp at hu
          | cons a l =>
            rw [hft] at hu
            rw [List.getLast?_cons_cons]
            exact hu
        · rw [if_neg (by simp [hn])]
          exact hu
      rw [hnt] at hm
      have : m' = m := Option.some_injective _ hm
      rw [← this]
      exact ih _ r hr m' hu d'
    | none =>
      have hfe : t.filter (fun x => T.chaveN x = T.chaveR r) = [] := by
        unfold ultimaCom at hu
        exact List.getLast?_eq_none_iff.mp hu
      have hball : ∀ x ∈ t, T.chaveN x ≠ T.chaveR r := by
        intro x hx hxe
        have hmemf : x ∈ t.filter (fun x => T.chaveN x = T.chaveR r) :=
          List.mem_filter.mpr ⟨hx, by simp [hxe]⟩
        rw [hfe] at hmemf
        simp at hmemf
      have hm' : T.chaveN n = T.chaveR r ∧ m = n := by
        unfold ultimaCom at hm
        rw [List.filter_cons] at hm
        by_cases hn : T.chaveN n = T.chaveR r
        · rw [if_pos (by simp [hn]), hfe] at hm
          simp only [List.getLast?_singleton, Option.some.injEq] at hm
          exact ⟨hn, hm.symm⟩
        · rw [if_neg (by simp [hn]), hfe] at hm
          simp at hm
      have hrfil : r ∈ (T.ingere d (T.upsert d s n) t).linhas.filter
          (fun x => T.chaveR x = T.chaveR r) :=
        List.mem_filter.mpr ⟨hr, by simp⟩
      rw [T.filtro_chave_ingere d (T.chaveR r) t hball (T.upsert d s n)] at hrfil
      have hrup : r ∈ (T.upsert d s n).linhas := List.mem_of_mem_filter hrfil
      rw [hm'.2]
      exact T.marca_upsert_chave d s n r hrup hm'.1.symm d'

theorem ingere_duas_vezes (d1 d2 : Data) (s : Banco R) (b : List N) :
    (T.ingere d2 (T.ingere d1 s b) b).linhas.map T.marca
        = (T.ingere d1 s b).linhas.map T.marca ∧
    (T.ingere d2 (T.ingere d1 s b) b).linhas.length
        = (T.ingere d1 s b).linhas.length ∧
    (T.ingere d2 (T.ingere d1 s b) b).proximoId = (T.ingere d1 s b).proximoId ∧
    (∀ r ∈ (T.ingere d2 (T.ingere d1 s b) b).linhas,
      (T.ultimaCom b (T.chaveR r)).isSome = true → T.coleta r = d2) := by
  have hpres : ∀ n ∈ b, T.temChave (T.ingere d1 s b).linhas (T.chaveN n) = true :=
    fun n hn => T.chaves_presentes d1 b s n hn
  have hF := T.ingere_todas_presentes d2 b (T.ingere d1 s b) hpres
  refine ⟨?_, ?_, ?_, ?_⟩
  · rw [hF]
    show (List.map _ _).map _ = _
    rw [List.map_map]
    apply List.map_congr_left
    intro r hr
    show T.marca (T.aplicaLote d2 b r) = T.marca r
    unfold aplicaLote
    cases hu : T.ultimaCom b (T.chaveR r) with
    | none => rfl
    | some m =>
      simp only []
      exact T.marca_fixa_ingere d1 b s r hr m hu d2
  · rw [hF]; simp
  · rw [hF]
  · rw [hF]
    intro r hr hsome
    obtain ⟨r0, hr0, heq⟩ := List.mem_map.mp hr
    subst heq
    have hch : T.chaveR (T.aplicaLote d2 b r0) = T.chaveR r0 := by
      unfold aplicaLote
      cases hu : T.ultimaCom b (T.chaveR r0) with
      | none => rfl
      | some m => simp only []; rw [T.chave_aplica]
    rw [hch] at hsome
    cases hu : T.ultimaCom b (T.chaveR r0) with
    | none => rw [hu] at hsome; simp at hsome
    | some m =>
      unfold aplicaLote
      rw [hu]
      exact T.coleta_aplica d2 m r0

end Tabela

/-- C4 counterexample: upserting an incoming record onto an existing natural
key does not overwrite the weekday column — `dia` is absent from the DO
UPDATE SET list, so the stored `"sáb."` survives although the incoming
record carries `"dom."`; the claim's "full replace of all mutable fields,
including the weekday field" fails on this input. -/
theorem C4_counterexample :
    ((tabelaPartidas.upsert 20240414 ⟨[partidaArmazenada], 2⟩
        novaPartidaEntrada).linhas.map (fun r => r.dia) = ["sáb."]) ∧
    novaPartidaEntrada.dia = "dom." ∧
    ("sáb." : String) ≠ "dom." := by
  exact ⟨by decide, rfl, by decide⟩

/-- C4 amended: for an existing natural key, the upsert keeps exactly one
updated row in place of the stored one; that row takes the incoming values
of every column in the DO UPDATE SET list — horario, local, ranking,
adversario, ranking_adversario, sistema, publico, gols, gols_adversario,
resultado — and the run's collection date, while the natural key, the
surrogate id AND the weekday column `dia` keep their stored values. -/
theorem C4_amended (d : Data) (s : Banco Partida) (n : NovaPartida) (r : Partida)
    (hr : r ∈ s.linhas) (hk : tabelaPartidas.chaveR r = tabelaPartidas.chaveN n) :
    tabelaPartidas.aplica d n r ∈ (tabelaPartidas.upsert d s n).linhas ∧
    ((tabelaPartidas.aplica d n r).horario = n.horario ∧
     (tabelaPartidas.aplica d n r).«local» = n.«local» ∧
     (tabelaPartidas.aplica d n r).ranking = n.ranking ∧
     (tabelaPartidas.aplica d n r).adversario = n.adversario ∧
     (tabelaPartidas.aplica d n r).ranking_adversario = n.ranking_adversario ∧
     (tabelaPartidas.aplica d n r).sistema = n.sistema ∧
     (tabelaPartidas.aplica d n r).publico = n.publico ∧
     (tabelaPartidas.aplica d n r).gols = n.gols ∧
     (tabelaPartidas.aplica d n r).gols_adversario = n.gols_adversario ∧
     (tabelaPartidas.aplica d n r).resultado = n.resultado ∧
     (tabelaPartidas.aplica d n r).dt_coleta = d) ∧
    ((tabelaPartidas.aplica d n r).id = r.id ∧
     (tabelaPartidas.aplica d n r).competicao = r.competicao ∧
     (tabelaPartidas.aplica d n r).rodada = r.rodada ∧
     (tabelaPartidas.aplica d n r).data = r.data ∧
     (tabelaPartidas.aplica d n r).dia = r.dia) := by
  refine ⟨?_, ⟨rfl, rfl, rfl, rfl, rfl, rfl, rfl, rfl, rfl, rfl, rfl⟩,
    rfl, rfl, rfl, rfl, rfl⟩
  have hc : tabelaPartidas.temChave s.linhas (tabelaPartidas.chaveN n) = true := by
    unfold Tabela.temChave
    rw [List.any_eq_true]
    exact ⟨r, hr, by simp [hk]⟩
  unfold Tabela.upsert
  rw [if_pos hc]
  refine List.mem_map.mpr ⟨r, hr, ?_⟩
  rw [if_pos hk]

theorem C4_amended_witness :
    tabelaPartidas.aplica 20240414 novaPartidaEntrada partidaArmazenada ∈
      (tabelaPartidas.upsert 20240414 ⟨[partidaArmazenada], 2⟩
        novaPartidaEntrada).linhas ∧
    (tabelaPartidas.aplica 20240414 novaPartidaEntrada partidaArmazenada).dia
      = partidaArmazenada.dia :=
  ⟨(C4_amended 20240414 ⟨[partidaArmazenada], 2⟩ novaPartidaEntrada
      partidaArmazenada (List.mem_singleton.mpr rfl) (by decide)).1,
   (C4_amended 20240414 ⟨[partidaArmazenada], 2⟩ novaPartidaEntrada
      partidaArmazenada (List.mem_singleton.mpr rfl) (by decide)).2.2.2.2.2.2⟩

/-- C5: for any starting store contents and any batches, re-running the
ingestion of the same match batch and the same tenure batch immediately
after a first run changes nothing observable: every row is identical apart
from `dt_coleta` (`marca` erases only that column), no row is inserted
(same row count, same next id), and the `dt_coleta` of every row whose key
occurs in the batch carries the most recent run's date. -/
theorem C5_idempotent (d1 d2 : Data) (sp : Banco Partida) (st : Banco Tecnico)
    (bp : List NovaPartida) (bt : List NovoTecnico) :
    ((tabelaPartidas.ingere d2 (tabelaPartidas.ingere d1 sp bp) bp).linhas.map
        tabelaPartidas.marca
        = (tabelaPartidas.ingere d1 sp bp).linhas.map tabelaPartidas.marca ∧
     (tabelaPartidas.ingere d2 (tabelaPartidas.ingere d1 sp bp) bp).linhas.length
        = (tabelaPartidas.ingere d1 sp bp).linhas.length ∧
     (tabelaPartidas.ingere d2 (tabelaPartidas.ingere d1 sp bp) bp).proximoId
        = (tabelaPartidas.ingere d1 sp bp).proximoId ∧
     (∀ r ∈ (tabelaPartidas.ingere d2 (tabelaPartidas.ingere d1 sp bp) bp).linhas,
       (tabelaPartidas.ultimaCom bp (tabelaPartidas.chaveR r)).isSome = true →
         r.dt_coleta = d2)) ∧
    ((tabelaTecnicos.ingere d2 (tabelaTecnicos.ingere d1 st bt) bt).linhas.map
        tabelaTecnicos.marca
        = (tabelaTecnicos.ingere d1 st bt).linhas.map tabelaTecnicos.marca ∧
     (tabelaTecnicos.ingere d2 (tabelaTecnicos.ingere d1 st bt) bt).linhas.length
        = (tabelaTecnicos.ingere d1 st bt).linhas.length ∧
     (tabelaTecnicos.ingere d2 (tabelaTecnicos.ingere d1 st bt) bt).proximoId
        = (tabelaTecnicos.ingere d1 st bt).proximoId ∧
     (∀ t ∈ (tabelaTecnicos.ingere d2 (tabelaTecnicos.ingere d1 st bt) bt).linhas,
       (tabelaTecnicos.ultimaCom bt (tabelaTecnicos.chaveR t)).isSome = true →
         t.dt_coleta = d2)) :=
  ⟨tabelaPartidas.ingere_duas_vezes d1 d2 sp bp,
   tabelaTecnicos.ingere_duas_vezes d1 d2 st bt⟩

theorem C5_idempotent_witness :
    (tabelaPartidas.ingere 20240415
        (tabelaPartidas.ingere 20240414 ⟨[], 1⟩ [novaPartidaEntrada])
        [novaPartidaEntrada]).linhas.map tabelaPartidas.marca
      = (tabelaPartidas.ingere 20240414 ⟨[], 1⟩ [novaPartidaEntrada]).linhas.map
          tabelaPartidas.marca :=
  (C5_idempotent 20240414 20240415 ⟨[], 1⟩ ⟨[], 1⟩ [novaPartidaEntrada] []).1.1

/-- C9: the year filter that `get_partidas` appends is the text
`AND strftime(%Y, data) = ?` — it contains no quoted `%Y`, unlike the
working clause of `consultar.py` and of the per-year route; without the
quotes `%Y` is not a SQLite string literal (the `%` right after the opening
parenthesis lexes as the binary modulo operator with no left operand), so
executing the query raises a syntax error instead of filtering by year. -/
theorem C9_year_filter_unquoted :
    contemTrecho ("strftime(%Y, data)").data filtroAnoApi.data = true ∧
    contemTrecho (comAspas "%Y").data filtroAnoApi.data = false ∧
    contemTrecho (comAspas "%Y").data filtroAnoConsultar.data = true := by
  exact ⟨by decide, by decide, by decide⟩

end Botafogo
